import Mathlib

/-!
Verification of the Poseidon2 "skinny" chip core
(`crates/recursion/core-v2/src/chips/poseidon2_skinny/mod.rs`).

The development shallowly embeds the permutation's linear layers, the chip's
compile-time parameters and construction-time degree check, and — where the
surrounding repository code (instruction runtime, trace generator, full round
sequence) is described only by the specification — models those parts from the
specification's words.  Machine integers are `Nat`; the prime field is
`ZMod babyBearPrime`.
-/

namespace Spec2Proof

/-- The fixed prime modulus of the field (the BabyBear prime `15 * 2^27 + 1`,
just below `2^31`). -/
def babyBearPrime : ℕ := 2013265921

/-- The prime field the permutation operates over. -/
abbrev BB := ZMod babyBearPrime

/-! ## Compile-time permutation parameters (`mod.rs` lines 12–17) -/

/-- The width of the permutation (`pub const WIDTH: usize = 16`). -/
def WIDTH : ℕ := 16

/-- The sponge rate (`pub const RATE: usize = WIDTH / 2`). -/
def RATE : ℕ := WIDTH / 2

/-- The number of external (full) rounds (`pub const NUM_EXTERNAL_ROUNDS: usize = 8`). -/
def NUM_EXTERNAL_ROUNDS : ℕ := 8

/-- The number of internal rounds (`pub const NUM_INTERNAL_ROUNDS: usize = 13`). -/
def NUM_INTERNAL_ROUNDS : ℕ := 13

/-- The total number of rounds
(`pub const NUM_ROUNDS: usize = NUM_EXTERNAL_ROUNDS + NUM_INTERNAL_ROUNDS`). -/
def NUM_ROUNDS : ℕ := NUM_EXTERNAL_ROUNDS + NUM_INTERNAL_ROUNDS

section LinearLayers

variable {R : Type} [CommRing R]

/-- The 4×4 transform `apply_m_4` of `mod.rs` lines 33–47, embedded on a
4-element state.  The source mutates the slice in place, writing slots in the
order `x[3], x[1], x[0], x[2]`; the embedding threads that order explicitly
through `Function.update`, so each write sees exactly the values the source
would see (in particular `x[0]` and `x[2]` are still unwritten when they are
read for the doubled terms). -/
def apply_m_4 (x : Fin 4 → R) : Fin 4 → R :=
  let t01 := x 0 + x 1
  let t23 := x 2 + x 3
  let t0123 := t01 + t23
  let t01123 := t0123 + x 1
  let t01233 := t0123 + x 3
  let s1 := Function.update x 3 (t01233 + (x 0 + x 0))
  let s2 := Function.update s1 1 (t01123 + (s1 2 + s1 2))
  let s3 := Function.update s2 0 (t01123 + t01)
  Function.update s3 2 (t01233 + t23)

/-- Slot 0 of `apply_m_4` holds `2x0 + 3x1 + x2 + x3`. -/
lemma apply_m_4_eval0 (x : Fin 4 → R) :
    apply_m_4 x 0 = 2 * x 0 + 3 * x 1 + x 2 + x 3 := by
  simp [apply_m_4, Function.update]
  ring

/-- Slot 1 of `apply_m_4` holds `x0 + 2x1 + 3x2 + x3`. -/
lemma apply_m_4_eval1 (x : Fin 4 → R) :
    apply_m_4 x 1 = x 0 + 2 * x 1 + 3 * x 2 + x 3 := by
  simp [apply_m_4, Function.update]
  ring

/-- Slot 2 of `apply_m_4` holds `x0 + x1 + 2x2 + 3x3`. -/
lemma apply_m_4_eval2 (x : Fin 4 → R) :
    apply_m_4 x 2 = x 0 + x 1 + 2 * x 2 + 3 * x 3 := by
  simp [apply_m_4, Function.update]
  ring

/-- Slot 3 of `apply_m_4` holds `3x0 + x1 + x2 + 2x3`. -/
lemma apply_m_4_eval3 (x : Fin 4 → R) :
    apply_m_4 x 3 = 3 * x 0 + x 1 + x 2 + 2 * x 3 := by
  simp [apply_m_4, Function.update]
  ring

/-- The first phase of `external_linear_layer` (`mod.rs` lines 50–52): the
16-element state is cut into four consecutive 4-element blocks and `apply_m_4`
is applied to each block independently (`for j in (0..WIDTH).step_by(4)`).
Element `i` of the result is slot `i % 4` of the transform of the block
starting at `4 * (i / 4)`. -/
def applyBlocks (s : Fin 16 → R) : Fin 16 → R := fun i =>
  apply_m_4 (fun k => s ⟨4 * (i.val / 4) + k.val, by omega⟩) ⟨i.val % 4, by omega⟩

/-- The external linear layer of `mod.rs` lines 49–59: apply `apply_m_4` to
each 4-element block, then form, for each intra-block position `k`, the sum of
the post-transform elements at position `k` of the four blocks
(`sums[k] = state[k] + state[4+k] + state[8+k] + state[12+k]`), and add
`sums[j % 4]` to every element `j`. -/
def external_linear_layer (s : Fin 16 → R) : Fin 16 → R :=
  let t := applyBlocks s
  let sums : Fin 4 → R := fun k =>
    t ⟨k.val, by omega⟩ + t ⟨4 + k.val, by omega⟩ +
      t ⟨8 + k.val, by omega⟩ + t ⟨12 + k.val, by omega⟩
  fun i => t i + sums ⟨i.val % 4, by omega⟩

/-- Applying `apply_m_4` to a pointwise sum gives the pointwise sum of the two
transforms. -/
lemma apply_m_4_add (x y : Fin 4 → R) (k : Fin 4) :
    apply_m_4 (fun j => x j + y j) k = apply_m_4 x k + apply_m_4 y k := by
  fin_cases k <;> simp [apply_m_4, Function.update] <;> ring

/-- Applying `apply_m_4` to a pointwise scalar multiple scales the transform. -/
lemma apply_m_4_smul (c : R) (x : Fin 4 → R) (k : Fin 4) :
    apply_m_4 (fun j => c * x j) k = c * apply_m_4 x k := by
  fin_cases k <;> simp [apply_m_4, Function.update] <;> ring

/-- The blockwise transform is additive. -/
lemma applyBlocks_add (a b : Fin 16 → R) (i : Fin 16) :
    applyBlocks (fun j => a j + b j) i = applyBlocks a i + applyBlocks b i :=
  apply_m_4_add _ _ _

/-- The blockwise transform commutes with scalar multiplication. -/
lemma applyBlocks_smul (c : R) (a : Fin 16 → R) (i : Fin 16) :
    applyBlocks (fun j => c * a j) i = c * applyBlocks a i :=
  apply_m_4_smul _ _ _

/-- Unfolding of the external linear layer in terms of the blockwise
transform. -/
lemma external_linear_layer_eval (s : Fin 16 → R) (i : Fin 16) :
    external_linear_layer s i =
      applyBlocks s i +
        (applyBlocks s ⟨i.val % 4, by omega⟩ + applyBlocks s ⟨4 + i.val % 4, by omega⟩ +
          applyBlocks s ⟨8 + i.val % 4, by omega⟩ + applyBlocks s ⟨12 + i.val % 4, by omega⟩) :=
  rfl

/-- Modelled from the spec: `matmul_internal`, the matrix–vector product the
internal layer calls, lives in the external Poseidon2 library and is not part
of `src/`.  Per the permutation's published design it multiplies the state by
the all-ones-plus-diagonal internal matrix: the sum of all elements is taken
first, and then each element `i` becomes `state[i] * d[i] + sum`. -/
def matmul_internal (d : Fin 16 → R) (s : Fin 16 → R) : Fin 16 → R :=
  let sum := ∑ j : Fin 16, s j
  fun i => s i * d i + sum

/-- The internal linear layer of `mod.rs` lines 61–72: the fixed diagonal
constant table is converted out of the field's internal scaled representation
before use (the converted table is the argument `d` here), `matmul_internal`
is run on the state with the field's wrapped multiplication, and afterwards
every element is multiplied by the fixed inverse-scale constant (the argument
`minv`). -/
def internal_linear_layer (d : Fin 16 → R) (minv : R) (s : Fin 16 → R) : Fin 16 → R :=
  fun i => matmul_internal d s i * minv

/-- The transform `apply_m_4` at the slice level: the source takes `&mut [AF]`
and indexes `x[0]`–`x[3]` with bounds-checked (panicking) indexing, so a slice
shorter than four elements panics — modelled as `none` — and a longer slice
has only its first four elements read and written (the writes land in slots
`3, 1, 0, 2`; the resulting list is shown in slot order). -/
def apply_m_4_list (x : List R) : Option (List R) :=
  match x with
  | x0 :: x1 :: x2 :: x3 :: rest =>
    let t01 := x0 + x1
    let t23 := x2 + x3
    let t0123 := t01 + t23
    let t01123 := t0123 + x1
    let t01233 := t0123 + x3
    some ((t01123 + t01) :: (t01123 + (x2 + x2)) :: (t01233 + t23) :: (t01233 + (x0 + x0))
      :: rest)
  | _ => none

/-- The external linear layer at the slice level: `apply_m_4` is applied to
the four consecutive 4-element chunks `state[j..j+4]`, `j = 0, 4, 8, 12`, and
then the intra-block-position sums are added to every element.  A panic inside
any chunk propagates as `none`. -/
def external_linear_layer_list (s : List R) : Option (List R) := do
  let b0 ← apply_m_4_list (s.take 4)
  let b1 ← apply_m_4_list ((s.drop 4).take 4)
  let b2 ← apply_m_4_list ((s.drop 8).take 4)
  let b3 ← apply_m_4_list ((s.drop 12).take 4)
  let t := b0 ++ b1 ++ b2 ++ b3
  let sums : ℕ → R := fun k =>
    t.getD k 0 + t.getD (4 + k) 0 + t.getD (8 + k) 0 + t.getD (12 + k) 0
  some (t.mapIdx fun j a => a + sums (j % 4))

/-- A slice of length at least four never makes `apply_m_4_list` panic. -/
lemma apply_m_4_list_isSome (x : List R) (h : 4 ≤ x.length) :
    (apply_m_4_list x).isSome = true := by
  rcases x with _ | ⟨a, x⟩
  · simp at h
  rcases x with _ | ⟨b, x⟩
  · simp only [List.length_cons, List.length_nil] at h
    omega
  rcases x with _ | ⟨c, x⟩
  · simp only [List.length_cons, List.length_nil] at h
    omega
  rcases x with _ | ⟨d, x⟩
  · simp only [List.length_cons, List.length_nil] at h
    omega
  rfl

/-- The internal layer as the claim words it: multiply the state by the matrix
`I + diag(d)` — identity plus diagonal — and afterwards multiply every element
of the result by the inverse-scale constant.  Stated only for comparison with
`internal_linear_layer`. -/
def internal_linear_layer_claimed (d : Fin 16 → R) (minv : R) (s : Fin 16 → R) : Fin 16 → R :=
  fun i => Matrix.mulVec (1 + Matrix.diagonal d) s i * minv

end LinearLayers

/-- Modelled from the spec: the fixed inverse-scale constant (`MONTY_INVERSE`
of the external field crate) that undoes the internal scaled representation.
The representation scales by `2^32` (Montgomery form for the 31-bit prime),
and `943718400` is the inverse of `2^32` in the field, as
`MONTY_INVERSE_mul_scale` records. -/
def MONTY_INVERSE : BB := 943718400

/-- The modelled inverse-scale constant is the multiplicative inverse of the
scale factor `2^32`. -/
lemma MONTY_INVERSE_mul_scale : MONTY_INVERSE * 2 ^ 32 = 1 := by decide

/-- Modelled from the spec: the fixed published 16-entry diagonal constant
table (`POSEIDON2_INTERNAL_MATRIX_DIAG_16_BABYBEAR_MONTY` of the external
field crate), after the conversion `internal_linear_layer` performs before
use.  The spec does not state the numeric entries, so they are left as an
unspecified fixed assignment; `internal_linear_layer_claim_fails` shows that
the counterexample below is independent of the entries. -/
def poseidon2InternalDiag16 : Fin 16 → BB := fun _ => 0

/-- The 16-element field state whose element at index 1 is `1` and whose other
elements are `0`. -/
def unitState1 : Fin 16 → BB := fun i => if i = 1 then 1 else 0

/-- For every diagonal table `d`, the internal layer disagrees at index 0 on
`unitState1` with the `I + diag(d)` description: the code yields the
inverse-scale constant itself (the all-ones matrix mixes in the element at
index 1), the description yields `0`. -/
lemma internal_linear_layer_claim_fails (d : Fin 16 → BB) :
    internal_linear_layer d MONTY_INVERSE unitState1 0 ≠
      internal_linear_layer_claimed d MONTY_INVERSE unitState1 0 := by
  simp [internal_linear_layer, internal_linear_layer_claimed, matmul_internal, unitState1,
    Matrix.mulVec, Matrix.dotProduct, Matrix.add_apply, Matrix.one_apply, Matrix.diagonal_apply,
    Finset.sum_ite_eq, MONTY_INVERSE]
  decide

/-- The Poseidon2 skinny chip configuration (`mod.rs` lines 19–24).  The
`DEGREE` const generic of the Rust struct carries no data; it is passed
separately to `poseidon2SkinnyChipDefault` below. -/
structure Poseidon2SkinnyChip where
  fixed_log2_rows : Option ℕ
  pad : Bool

/-- The `Default` construction of the chip (`mod.rs` lines 26–32): it runs
`assert!(DEGREE >= 9)` and then builds `{ fixed_log2_rows: None, pad: true }`.
The failed assertion is modelled as `none`. -/
def poseidon2SkinnyChipDefault (DEGREE : ℕ) : Option Poseidon2SkinnyChip :=
  if 9 ≤ DEGREE then some ⟨none, true⟩ else none

/-- Modelled from the spec: one external (full) round of the permutation —
round constants are added to all elements, every element passes through the
S-box (a fixed odd exponent at least 7, modelled as 7), and the external
linear layer is applied.  The round sequence itself is not part of `src/`. -/
def externalRound (rc : Fin 16 → BB) (s : Fin 16 → BB) : Fin 16 → BB :=
  external_linear_layer fun i => (s i + rc i) ^ 7

/-- Modelled from the spec: one internal round of the permutation — one round
constant is added to element 0, only element 0 passes through the S-box, and
the internal linear layer is applied.  The round sequence itself is not part
of `src/`. -/
def internalRound (d : Fin 16 → BB) (minv : BB) (rc : BB) (s : Fin 16 → BB) : Fin 16 → BB :=
  internal_linear_layer d minv fun i => if i = 0 then (s 0 + rc) ^ 7 else s i

/-- Modelled from the spec: the permutation core — half of the eight external
rounds, then the thirteen internal rounds, then the remaining external rounds.
The round-constant tables `erc`/`irc`, the diagonal table `d` and the
inverse-scale constant `minv` are the fixed published configuration tables,
passed as parameters. -/
def poseidon2Permutation (erc : Fin 8 → Fin 16 → BB) (irc : Fin 13 → BB)
    (d : Fin 16 → BB) (minv : BB) (s : Fin 16 → BB) : Fin 16 → BB :=
  let s1 := (List.finRange 4).foldl (fun st r => externalRound (erc ⟨r.val, by omega⟩) st) s
  let s2 := (List.finRange 13).foldl (fun st r => internalRound d minv (irc r) st) s1
  (List.finRange 4).foldl (fun st r => externalRound (erc ⟨4 + r.val, by omega⟩) st) s2

/-- Modelled from the spec: the access kind of a memory instruction.  The
instruction runtime is not part of `src/`. -/
inductive MemAccessKind where
  | read
  | write

/-- Modelled from the spec: a typed instruction — a memory access (a write
stores its value, a read declares the value it expects to find) or a
permutation invocation over sixteen input and output addresses. -/
inductive Instruction where
  | mem (kind : MemAccessKind) (addr : ℕ) (val : BB)
  | poseidon2 (inputAddrs outputAddrs : Fin 16 → ℕ)

/-- Modelled from the spec: one entry of the runtime's ordered event record. -/
inductive Event where
  | read (addr : ℕ) (val : BB)
  | write (addr : ℕ) (val : BB)
  | poseidon2 (input output : Fin 16 → BB)

/-- Modelled from the spec: the fatal execution fault raised when a declared
read does not match stored memory (or reads an unwritten address). -/
inductive RuntimeError where
  | memoryConsistencyError (addr : ℕ)

/-- Modelled from the spec: one transition of the instruction runtime.  A read
looks the address up and faults with `memoryConsistencyError` unless the
stored value equals the declared one; a write stores its value; a permutation
invocation reads the sixteen inputs, runs the permutation passed to the
runtime, writes the sixteen outputs and records the full invocation.  Each
successful step appends one event. -/
def step (perm : (Fin 16 → BB) → Fin 16 → BB) (mem : ℕ → Option BB) (events : List Event) :
    Instruction → Except RuntimeError ((ℕ → Option BB) × List Event)
  | .mem .read addr expected =>
    match mem addr with
    | some v =>
      if v = expected then .ok (mem, events ++ [.read addr v])
      else .error (.memoryConsistencyError addr)
    | none => .error (.memoryConsistencyError addr)
  | .mem .write addr v =>
    .ok (fun a => if a = addr then some v else mem a, events ++ [.write addr v])
  | .poseidon2 inputAddrs outputAddrs =>
    if h : ∀ i, (mem (inputAddrs i)).isSome then
      let input : Fin 16 → BB := fun i => (mem (inputAddrs i)).get (h i)
      let output := perm input
      let memNew := (List.finRange 16).foldl
        (fun m i => fun a => if a = outputAddrs i then some (output i) else m a) mem
      .ok (memNew, events ++ [.poseidon2 input output])
    else
      .error (.memoryConsistencyError
        (((List.finRange 16).find? fun i => (mem (inputAddrs i)).isNone).elim 0 inputAddrs))

/-- Modelled from the spec: run a program from empty memory and an empty
record.  A fault propagates immediately — the error carries no record, so a
faulting execution produces no partial trace. -/
def runProgram (perm : (Fin 16 → BB) → Fin 16 → BB) (prog : List Instruction) :
    Except RuntimeError ((ℕ → Option BB) × List Event) :=
  prog.foldlM (fun st instr => step perm st.1 st.2 instr) (fun _ => none, ([] : List Event))

/-- Modelled from the spec: a permutation-invocation event as the trace
generator consumes it from the record.  The intermediate round states the
record also carries are not needed by the padding claim and are abstracted. -/
structure Poseidon2Event where
  input : Fin 16 → BB
  output : Fin 16 → BB

/-- Modelled from the spec: one row of the trace matrix.  The named columns
are abstracted to the row's round index and the invocation's claimed
input/output; `isReal` is the flag distinguishing real rows from padding. -/
structure TraceRow where
  isReal : Bool
  round : ℕ
  input : Fin 16 → BB
  output : Fin 16 → BB

/-- Modelled from the spec: rows per invocation in the skinny layout — one row
per external round plus one row for the whole internal-round sequence. -/
def rowsPerInvocation : ℕ := NUM_EXTERNAL_ROUNDS + 1

/-- Modelled from the spec: the real (non-padding) rows of the trace, in
event order, `rowsPerInvocation` rows per invocation, each flagged real. -/
def realRows (events : List Poseidon2Event) : List TraceRow :=
  events.flatMap fun e => (List.range rowsPerInvocation).map fun r => ⟨true, r, e.input, e.output⟩

/-- Modelled from the spec: a padding row — it replays a fixed dummy
computation (abstracted here) and carries the is-real flag set false. -/
def dummyRow : TraceRow := ⟨false, 0, fun _ => 0, fun _ => 0⟩

/-- Modelled from the spec: the trace generator — lay out the rows of all
invocations in order and, when the chip's `pad` flag is set, append dummy rows
until the row count reaches the next power of two. -/
def generateTrace (chip : Poseidon2SkinnyChip) (events : List Poseidon2Event) : List TraceRow :=
  let rows := realRows events
  if chip.pad then
    rows ++ List.replicate (2 ^ Nat.clog 2 rows.length - rows.length) dummyRow
  else rows

/-- C7: the permutation parameters are fixed with state width 16, eight
external rounds, thirteen internal rounds, and a total round count equal to
their sum, 21. -/
theorem permutation_parameters_fixed :
    WIDTH = 16 ∧ NUM_EXTERNAL_ROUNDS = 8 ∧ NUM_INTERNAL_ROUNDS = 13 ∧
      NUM_ROUNDS = NUM_EXTERNAL_ROUNDS + NUM_INTERNAL_ROUNDS ∧ NUM_ROUNDS = 21 := by
  refine ⟨rfl, rfl, rfl, rfl, rfl⟩

/-- C1 (counterexample): on input `x0 = 1, x1 = x2 = x3 = 0` the value the
transform leaves in slot 0 is `2`, not the claimed `3x0 + x1 + x2 + 2x3 = 3`:
the claimed list of outputs is produced in the write order `x[3], x[1], x[0],
x[2]`, not in slot order `0..3`. -/
theorem apply_m_4_slot0_counterexample :
    apply_m_4 (fun i => if i = 0 then (1 : BB) else 0) 0 ≠
      3 * 1 + 0 + 0 + 2 * 0 := by
  rw [apply_m_4_eval0]
  norm_num
  decide

/-- C1 (amended): for every 4-element block, `apply_m_4` produces, in slot
order `0..3`, the outputs `2x0+3x1+x2+x3`, `x0+2x1+3x2+x3`, `x0+x1+2x2+3x3`,
`3x0+x1+x2+2x3`, each computed from the pre-transform values of all four
inputs (the spec's listed outputs appear in the write order `x[3], x[1],
x[0], x[2]`). -/
theorem apply_m_4_slots {R : Type} [CommRing R] (x : Fin 4 → R) :
    apply_m_4 x 0 = 2 * x 0 + 3 * x 1 + x 2 + x 3 ∧
    apply_m_4 x 1 = x 0 + 2 * x 1 + 3 * x 2 + x 3 ∧
    apply_m_4 x 2 = x 0 + x 1 + 2 * x 2 + 3 * x 3 ∧
    apply_m_4 x 3 = 3 * x 0 + x 1 + x 2 + 2 * x 3 :=
  ⟨apply_m_4_eval0 x, apply_m_4_eval1 x, apply_m_4_eval2 x, apply_m_4_eval3 x⟩

/-- C3: the external linear layer first applies the 4×4 block transform to the
four consecutive blocks independently (`applyBlocks`), then adds to every
element `i` the sum, over the four blocks, of the post-transform elements at
intra-block position `i % 4`. -/
theorem external_linear_layer_block_sums {R : Type} [CommRing R] (s : Fin 16 → R) (i : Fin 16) :
    external_linear_layer s i =
      applyBlocks s i + ∑ b : Fin 4, applyBlocks s ⟨4 * b.val + i.val % 4, by omega⟩ := by
  rw [external_linear_layer_eval, Fin.sum_univ_four]
  simp only [show ((0 : Fin 4) : ℕ) = 0 from rfl, show ((1 : Fin 4) : ℕ) = 1 from rfl,
    show ((2 : Fin 4) : ℕ) = 2 from rfl, show ((3 : Fin 4) : ℕ) = 3 from rfl]
  norm_num

/-- C4: the external linear layer is linear over the 16-element state: it
sends a pointwise sum of states to the pointwise sum of its outputs and a
scalar multiple of a state to the scalar multiple of its output. -/
theorem external_linear_layer_linear {R : Type} [CommRing R] (a b : Fin 16 → R) (c : R)
    (i : Fin 16) :
    external_linear_layer (fun j => a j + b j) i =
        external_linear_layer a i + external_linear_layer b i ∧
      external_linear_layer (fun j => c * a j) i = c * external_linear_layer a i := by
  constructor
  · simp only [external_linear_layer_eval, applyBlocks_add]
    ring
  · simp only [external_linear_layer_eval, applyBlocks_smul]
    ring

/-- C2 (counterexample): on the state that is `1` at index 1 and `0`
elsewhere, element 0 of the internal layer's output is the inverse-scale
constant itself (the internal matrix's all-ones part mixes in the neighbouring
element), whereas multiplying by `I + diag(d)` and then by the inverse-scale
constant yields `0` there; the fixed diagonal table does not enter the
disagreement (`internal_linear_layer_claim_fails` proves it for every
table). -/
theorem internal_linear_layer_counterexample :
    internal_linear_layer poseidon2InternalDiag16 MONTY_INVERSE unitState1 0 ≠
      internal_linear_layer_claimed poseidon2InternalDiag16 MONTY_INVERSE unitState1 0 :=
  internal_linear_layer_claim_fails poseidon2InternalDiag16

/-- C2 (amended): the internal linear layer maps the state by the matrix
`J + diag(d)` — the all-ones matrix plus the diagonal of the converted
constant table — using the field's wrapped multiplication, and afterwards
every element of the result is multiplied by the fixed inverse-scale
constant. -/
theorem internal_linear_layer_matrix {R : Type} [CommRing R] (d : Fin 16 → R) (minv : R)
    (s : Fin 16 → R) (i : Fin 16) :
    internal_linear_layer d minv s i =
      Matrix.mulVec (Matrix.diagonal d + Matrix.of fun _ _ => (1 : R)) s i * minv := by
  simp [internal_linear_layer, matmul_internal, Matrix.mulVec, Matrix.dotProduct,
    Matrix.add_apply, Matrix.diagonal_apply, Matrix.of_apply, add_mul, ite_mul, zero_mul,
    one_mul, Finset.sum_add_distrib, Finset.sum_ite_eq]
  ring

/-- C6: constructing the default chip with `DEGREE < 9` fails the
construction-time assertion, and for every `DEGREE ≥ 9` the default
construction succeeds, yielding `{ fixed_log2_rows: None, pad: true }`. -/
theorem poseidon2SkinnyChipDefault_degree (DEGREE : ℕ) :
    (DEGREE < 9 → poseidon2SkinnyChipDefault DEGREE = none) ∧
      (9 ≤ DEGREE → poseidon2SkinnyChipDefault DEGREE = some ⟨none, true⟩) := by
  unfold poseidon2SkinnyChipDefault
  constructor
  · intro h
    rw [if_neg]
    omega
  · intro h
    rw [if_pos h]

/-- Witness for C6: construction fails at `DEGREE = 8` and succeeds at
`DEGREE = 9`. -/
theorem poseidon2SkinnyChipDefault_degree_witness :
    poseidon2SkinnyChipDefault 8 = none ∧
      poseidon2SkinnyChipDefault 9 = some ⟨none, true⟩ :=
  ⟨(poseidon2SkinnyChipDefault_degree 8).1 (by norm_num),
    (poseidon2SkinnyChipDefault_degree 9).2 (by norm_num)⟩

/-- C5: the permutation core and its layers are deterministic — two
invocations on equal input states produce equal output states. -/
theorem poseidon2Permutation_deterministic (erc : Fin 8 → Fin 16 → BB)
    (irc : Fin 13 → BB) (d : Fin 16 → BB) (minv : BB) (s t : Fin 16 → BB) (h : s = t) :
    poseidon2Permutation erc irc d minv s = poseidon2Permutation erc irc d minv t ∧
      external_linear_layer s = external_linear_layer t ∧
      internal_linear_layer d minv s = internal_linear_layer d minv t := by
  subst h
  exact ⟨rfl, rfl, rfl⟩

/-- Witness for C5: determinism instantiated on the all-ones state with the
modelled constant tables. -/
theorem poseidon2Permutation_deterministic_witness :
    poseidon2Permutation (fun _ _ => 1) (fun _ => 1) poseidon2InternalDiag16 MONTY_INVERSE
          (fun _ => 1) =
        poseidon2Permutation (fun _ _ => 1) (fun _ => 1) poseidon2InternalDiag16 MONTY_INVERSE
          (fun _ => 1) ∧
      external_linear_layer (fun _ => (1 : BB)) = external_linear_layer (fun _ => (1 : BB)) ∧
      internal_linear_layer poseidon2InternalDiag16 MONTY_INVERSE (fun _ => 1) =
        internal_linear_layer poseidon2InternalDiag16 MONTY_INVERSE (fun _ => 1) :=
  poseidon2Permutation_deterministic (fun _ _ => 1) (fun _ => 1) poseidon2InternalDiag16
    MONTY_INVERSE (fun _ => 1) (fun _ => 1) rfl

/-- C8: writing `7` to address `5` and then reading address `5` expecting `7`
executes without fault and appends exactly two events; the same write followed
by a read expecting `8` halts with `memoryConsistencyError` at address 5, and
the error carries no record — no partial trace is produced. -/
theorem runtime_memory_consistency (perm : (Fin 16 → BB) → Fin 16 → BB) :
    (runProgram perm [.mem .write 5 7, .mem .read 5 7]).map Prod.snd =
        .ok [.write 5 7, .read 5 7] ∧
      runProgram perm [.mem .write 5 7, .mem .read 5 8] =
        .error (.memoryConsistencyError 5) := by
  constructor
  · rfl
  · rfl

/-- C9: with padding enabled, the trace's total row count is the next power of
two above the real row count, and every padded row carries the is-real flag
set false. -/
theorem generateTrace_padding (chip : Poseidon2SkinnyChip) (events : List Poseidon2Event)
    (h : chip.pad = true) :
    (generateTrace chip events).length = 2 ^ Nat.clog 2 (realRows events).length ∧
      ∀ i : ℕ, (realRows events).length ≤ i →
        ((generateTrace chip events)[i]?.getD dummyRow).isReal = false := by
  have hle : (realRows events).length ≤ 2 ^ Nat.clog 2 (realRows events).length :=
    Nat.le_pow_clog (by norm_num) _
  constructor
  · simp only [generateTrace, h, if_true, List.length_append, List.length_replicate]
    omega
  · intro i hi
    simp only [generateTrace, h, if_true]
    rw [List.getElem?_append_right hi, List.getElem?_replicate]
    split
    · rfl
    · rfl

/-- Witness for C9: one recorded invocation yields nine real rows, the trace
is padded to sixteen rows, and the padded row at index 12 is not real. -/
theorem generateTrace_padding_witness :
    (generateTrace ⟨none, true⟩ [⟨fun _ => 1, fun _ => 0⟩]).length =
        2 ^ Nat.clog 2 (realRows [⟨fun _ => 1, fun _ => 0⟩]).length ∧
      ((generateTrace ⟨none, true⟩ [⟨fun _ => 1, fun _ => 0⟩])[12]?.getD dummyRow).isReal =
        false :=
  ⟨(generateTrace_padding ⟨none, true⟩ [⟨fun _ => 1, fun _ => 0⟩] rfl).1,
    (generateTrace_padding ⟨none, true⟩ [⟨fun _ => 1, fun _ => 0⟩] rfl).2 12 (by
      simp [realRows, rowsPerInvocation, NUM_EXTERNAL_ROUNDS])⟩

/-- C10: `apply_m_4` touches only the first four elements of its slice — on a
slice of length at least four it succeeds, the first four slots become the
transform of the first four input elements (pre-transform values), and every
element from index 4 on is returned unchanged; on a slice shorter than four it
panics (`none`); and on a 16-element state the external layer passes it
exactly-4-element chunks, so the external layer is total. -/
theorem apply_m_4_slice_safety {R : Type} [CommRing R] (x y s : List R)
    (hx : 4 ≤ x.length) (hy : y.length < 4) (hs : s.length = 16) :
    apply_m_4_list x =
        some (apply_m_4 (fun k => x.getD k.val 0) 0 :: apply_m_4 (fun k => x.getD k.val 0) 1 ::
          apply_m_4 (fun k => x.getD k.val 0) 2 :: apply_m_4 (fun k => x.getD k.val 0) 3 ::
          x.drop 4) ∧
      apply_m_4_list y = none ∧
      (s.take 4).length = 4 ∧ ((s.drop 4).take 4).length = 4 ∧
      ((s.drop 8).take 4).length = 4 ∧ ((s.drop 12).take 4).length = 4 ∧
      (external_linear_layer_list s).isSome = true := by
  refine ⟨?_, ?_, ?_, ?_, ?_, ?_, ?_⟩
  · rcases x with _ | ⟨a, x⟩
    · simp at hx
    rcases x with _ | ⟨b, x⟩
    · simp only [List.length_cons, List.length_nil] at hx
      omega
    rcases x with _ | ⟨c, x⟩
    · simp only [List.length_cons, List.length_nil] at hx
      omega
    rcases x with _ | ⟨d, x⟩
    · simp only [List.length_cons, List.length_nil] at hx
      omega
    rfl
  · rcases y with _ | ⟨a, y⟩
    · rfl
    rcases y with _ | ⟨b, y⟩
    · rfl
    rcases y with _ | ⟨c, y⟩
    · rfl
    rcases y with _ | ⟨d, y⟩
    · rfl
    simp only [List.length_cons] at hy
    omega
  · simp only [List.length_take, hs]
    omega
  · simp only [List.length_take, List.length_drop, hs]
    omega
  · simp only [List.length_take, List.length_drop, hs]
    omega
  · simp only [List.length_take, List.length_drop, hs]
    omega
  · obtain ⟨b0, hb0⟩ := Option.isSome_iff_exists.mp
      (apply_m_4_list_isSome (s.take 4) (by simp only [List.length_take, hs]; omega))
    obtain ⟨b1, hb1⟩ := Option.isSome_iff_exists.mp
      (apply_m_4_list_isSome ((s.drop 4).take 4)
        (by simp only [List.length_take, List.length_drop, hs]; omega))
    obtain ⟨b2, hb2⟩ := Option.isSome_iff_exists.mp
      (apply_m_4_list_isSome ((s.drop 8).take 4)
        (by simp only [List.length_take, List.length_drop, hs]; omega))
    obtain ⟨b3, hb3⟩ := Option.isSome_iff_exists.mp
      (apply_m_4_list_isSome ((s.drop 12).take 4)
        (by simp only [List.length_take, List.length_drop, hs]; omega))
    simp [external_linear_layer_list, hb0, hb1, hb2, hb3]

/-- Witness for C10: a 5-element slice is transformed in place with its tail
untouched, a 1-element slice panics, and the external layer is total on a
16-element state. -/
theorem apply_m_4_slice_safety_witness :
    apply_m_4_list [(1 : ℤ), 2, 3, 4, 5] = some [15, 18, 21, 16, 5] ∧
      apply_m_4_list [(1 : ℤ)] = none ∧
      (external_linear_layer_list (List.replicate 16 (1 : ℤ))).isSome = true := by
  have h := apply_m_4_slice_safety [(1 : ℤ), 2, 3, 4, 5] [(1 : ℤ)]
    (List.replicate 16 (1 : ℤ)) (by norm_num) (by norm_num) (by norm_num)
  refine ⟨?_, h.2.1, h.2.2.2.2.2.2⟩
  rw [h.1]
  decide

end Spec2Proof
